import Mathlib

/-!
Shallow embedding of the tender-alerts discovery-and-qualification pipeline
(`src/unnamed/part_001`, `src/lib/contracts-finder.js`, `src/api/check-tenders-direct.js`).

JavaScript modelling conventions:
* optional / nullable fields are `Option _`; `undefined` and `null` are both `none`;
* JS truthiness of a string (`!s`) is `none` or `some ""` falsy;
* JS truthiness of a number is `none` or `some 0` falsy (NaN does not arise here);
* numbers are `ℚ` (JS floats behave exactly on the magnitudes used here);
* `new Date(s)` / timestamp comparison is modelled by an explicit parameter
  `parse : String → Option Int` (a parse failure, JS `Invalid Date`, is `none`)
  together with the evaluation instant `now : Int`;
* a thrown exception that reaches the outer `try`/`catch` is an `Except.error`.
-/

namespace TenderAlerts

/-- Canonical tender shape produced by the normalizer inside
`fetchAdaptationTenders` (`part_001`, first draft, lines 95-104). -/
structure Tender where
  id : String
  title : String
  description : String
  buyer : String
  value : Option ℚ
  deadline : Option String
  status : String
  location : String
  deriving DecidableEq, Repr

/-- Contractor capability profile, with the field names used by `qualifyTender`. -/
structure Profile where
  turnover : ℚ
  publicLiability : ℚ
  yearsAdaptations : ℚ
  hasSafeguarding : Bool
  hasDBSChecks : Bool
  hasHealthSafety : Bool
  hasCHAS : Bool
  hasSMAS : Bool
  hasConstructionline : Bool
  hasSafeContractor : Bool
  location : String
  deriving DecidableEq, Repr

/-- JS truthiness for an optional string: `undefined`, `null` and `""` are falsy. -/
def jsTruthyStr (s : Option String) : Bool :=
  match s with
  | none => false
  | some s => s ≠ ""

/-- JS truthiness for an optional number: `undefined`, `null` and `0` are falsy. -/
def jsTruthyNum (v : Option ℚ) : Bool :=
  match v with
  | none => false
  | some x => x ≠ 0

/-- JS `a || b` on two optional strings (used for the deadline candidates). -/
def jsOrStr (a b : Option String) : Option String :=
  if jsTruthyStr a then a else b

/-- JS `a || d` on an optional string with a string default
(used for `title`, `description`, `buyer`, `status`). -/
def jsOrDefault (a : Option String) (d : String) : String :=
  match a with
  | none => d
  | some s => if s = "" then d else s

/-- JS `amount || null` on the optional monetary amount: a missing or zero
(falsy) amount becomes `null`. -/
def jsOrNullNum (a : Option ℚ) : Option ℚ :=
  if jsTruthyNum a then a else none

/-- Boolean test for one character list being a contiguous infix of another,
modelling JS `String.prototype.includes`. -/
def charsInclude (sub : List Char) : List Char → Bool
  | [] => sub.isEmpty
  | c :: rest => sub.isPrefixOf (c :: rest) || charsInclude sub rest

/-- JS `text.includes(sub)` on strings. -/
def strIncludes (text sub : String) : Bool :=
  charsInclude sub.toList text.toList

/-- JS `s.toLowerCase()` (all strings involved are ASCII). -/
def strLower (s : String) : String :=
  String.mk (s.toList.map Char.toLower)

/-- Core adaptation keywords of `part_001` (first draft): a tender must
contain at least one of these. -/
def CORE_ADAPTATION_KEYWORDS : List String :=
  ["dfg", "disabled facilities", "adaptation", "accessible", "mobility",
   "wheelchair", "ramp", "bathroom", "wet room", "level access",
   "grab rail", "stairlift"]

/-- Keywords that exclude a tender as a false positive (`part_001`, first draft). -/
def EXCLUDE_KEYWORDS : List String :=
  ["it system", "software", "legal services", "audit",
   "consultancy only", "design only", "survey only"]

/-- Fixed jurisdiction iteration order (`WEST_MIDLANDS_COUNCILS`). -/
def WEST_MIDLANDS_COUNCILS : List String :=
  ["Birmingham", "Dudley", "Sandwell", "Walsall", "Wolverhampton",
   "Solihull", "Coventry"]

/-- Deadline validator `hasFutureDeadline` (`part_001`, first draft, lines
144-160): falsy deadline fails; otherwise the deadline must parse and be
strictly later than `now` (`deadlineDate > now`). An unparseable deadline
(JS `Invalid Date`, whose comparison is always false) is not retained. -/
def hasFutureDeadline (parse : String → Option Int) (now : Int)
    (t : Tender) : Bool :=
  if jsTruthyStr t.deadline then
    match t.deadline with
    | none => false
    | some s =>
      match parse s with
      | none => false
      | some d => now < d
  else false

/-- Relevance classifier `isRelevantAdaptationTender` (`part_001`, first
draft, lines 166-184): lowercase `title ++ " " ++ description`; reject if any
exclusion keyword occurs; otherwise accept iff some core keyword occurs. -/
def isRelevantAdaptationTender (t : Tender) : Bool :=
  let text := strLower (t.title ++ " " ++ t.description)
  if EXCLUDE_KEYWORDS.any (fun k => strIncludes text k) then false
  else CORE_ADAPTATION_KEYWORDS.any (fun k => strIncludes text k)

/-- Raw upstream OCDS release, restricted to the fields the normalizer reads. -/
structure Release where
  ocid : String
  title : Option String
  description : Option String
  buyerName : Option String
  amount : Option ℚ
  enquiryEnd : Option String
  tenderEnd : Option String
  status : Option String
  deriving DecidableEq, Repr

/-- Normalizer: one raw release under one jurisdiction label becomes a
canonical `Tender` (`part_001`, first draft, lines 95-104). -/
def normalizeTender (location : String) (r : Release) : Tender :=
  { id := r.ocid
    title := jsOrDefault r.title "Untitled"
    description := jsOrDefault r.description ""
    buyer := jsOrDefault r.buyerName "Unknown"
    value := jsOrNullNum r.amount
    deadline := jsOrStr r.enquiryEnd r.tenderEnd
    status := jsOrDefault r.status "unknown"
    location := location }

/-- Tri-state qualification status returned by `qualifyTender` (the code's
string literals `'red'` / `'amber'` / `'green'`, which the specification calls
`disqualified` / `conditional` / `qualified`). -/
inductive Status where
  | red
  | amber
  | green
  deriving DecidableEq, Repr

/-- Outcome of one scoring rule: a score delta, the `passes` entries it pushes
and the `issues` entries it pushes (each rule pushes at most one of each; the
accreditation rule pushes up to four passes). The interpolated numeric
formatting of the JS template strings (`toLocaleString`) is abstracted away;
no property depends on the message text. -/
abbrev RuleOut := Int × List String × List String

/-- Turnover adequacy rule: evaluated only when `tender.value` is truthy
(non-null and non-zero); tiers on `profile.turnover / tender.value`. -/
def turnoverCheck (t : Tender) (p : Profile) : RuleOut :=
  if jsTruthyNum t.value then
    let v := match t.value with | some x => x | none => 0
    let turnoverMultiple := p.turnover / v
    if turnoverMultiple ≥ 3 then
      (10, ["Your turnover exceeds 3x contract value"], [])
    else if turnoverMultiple ≥ 3/2 then
      (5, ["Your turnover covers contract value with good margin"], [])
    else if turnoverMultiple ≥ 1 then
      (2, ["Your turnover matches contract value"], [])
    else if turnoverMultiple ≥ 1/2 then
      (-3, [], ["Your turnover is below contract value - risky"])
    else
      (-10, [], ["Your turnover is far below this contract value"])
  else (0, [], [])

/-- Fixed public-liability insurance minimum (`requiredInsurance`). -/
def requiredInsurance : ℚ := 5000000

/-- Insurance rule: `publicLiability >= 5000000` gives +15, else -20. -/
def insuranceCheck (p : Profile) : RuleOut :=
  if p.publicLiability ≥ requiredInsurance then
    (15, ["You have required public liability insurance"], [])
  else
    (-20, [], ["You need public liability insurance"])

/-- Experience rule tiers on `yearsAdaptations`. -/
def experienceCheck (p : Profile) : RuleOut :=
  if p.yearsAdaptations ≥ 5 then
    (10, ["years experience in adaptation work"], [])
  else if p.yearsAdaptations ≥ 3 then
    (5, ["years experience (councils prefer 5+ years)"], [])
  else if p.yearsAdaptations ≥ 1 then
    (-5, [], ["Only a few year(s) experience (many councils require 5+)"])
  else
    (-15, [], ["Insufficient experience in adaptation work"])

/-- Safeguarding-policy rule: +8 when present, -15 when missing. -/
def safeguardingCheck (p : Profile) : RuleOut :=
  if p.hasSafeguarding then
    (8, ["You have a safeguarding policy"], [])
  else
    (-15, [], ["Missing safeguarding policy"])

/-- DBS-checks rule: +8 when present, -10 when missing. -/
def dbsCheck (p : Profile) : RuleOut :=
  if p.hasDBSChecks then
    (8, ["Your staff have enhanced DBS checks"], [])
  else
    (-10, [], ["Staff need enhanced DBS checks"])

/-- Health-and-safety rule: +7 when present, -8 when missing. -/
def healthSafetyCheck (p : Profile) : RuleOut :=
  if p.hasHealthSafety then
    (7, ["You have CDM 2015 compliant Health and Safety Policy"], [])
  else
    (-8, [], ["Missing Health and Safety Policy (CDM 2015)"])

/-- Accreditation bonus: +5 independently for each of CHAS, SMAS,
Constructionline, SafeContractor, each also pushing a pass entry. The code
sums into `accreditationBonus` and adds it only when positive, which is the
same as adding each +5 directly (the sum is never negative). -/
def accreditationCheck (p : Profile) : RuleOut :=
  ((if p.hasCHAS then 5 else 0) + (if p.hasSMAS then 5 else 0)
     + (if p.hasConstructionline then 5 else 0)
     + (if p.hasSafeContractor then 5 else 0),
   (if p.hasCHAS then ["CHAS accreditation"] else [])
     ++ (if p.hasSMAS then ["SMAS accreditation"] else [])
     ++ (if p.hasConstructionline then ["Constructionline registration"] else [])
     ++ (if p.hasSafeContractor then ["SafeContractor accreditation"] else []),
   [])

/-- Location bonus: +3 when `tender.location` is truthy and the lowercased
profile location contains the lowercased tender location as a substring. -/
def locationCheck (t : Tender) (p : Profile) : RuleOut :=
  if t.location ≠ "" ∧
      strIncludes (strLower p.location) (strLower t.location) = true then
    (3, ["Local to the tender location"], [])
  else (0, [], [])

/-- Status determination (`part_001`, first draft, lines 297-315): hard gate
(insurance below 5,000,000 or under 1 year experience) forces `red`; then a
missing policy forces `amber`; then score thresholds 25 (`green`) and 15
(`amber`); otherwise the initial `red` stands. -/
def statusOf (score : Int) (p : Profile) : Status :=
  if p.publicLiability < 5000000 ∨ p.yearsAdaptations < 1 then .red
  else if ¬p.hasSafeguarding ∨ ¬p.hasDBSChecks ∨ ¬p.hasHealthSafety then .amber
  else if score ≥ 25 then .green
  else if score ≥ 15 then .amber
  else .red

/-- Public projection of the tender returned inside a qualification result,
with the deterministically derived Contracts Finder URL. -/
structure TenderOut where
  id : String
  title : String
  description : String
  buyer : String
  value : Option ℚ
  deadline : Option String
  url : String
  location : String
  deriving DecidableEq, Repr

/-- Result of qualifying one tender against one profile. -/
structure QualResult where
  tender : TenderOut
  score : Int
  status : Status
  passes : List String
  issues : List String
  deriving DecidableEq, Repr

/-- Scoring engine and classifier `qualifyTender` (`part_001`, first draft,
lines 190-336): the eight rule blocks run in order, each adding its delta to
`score` and appending its messages to `passes` / `issues`; the final status is
gated as in `statusOf`. -/
def qualifyTender (t : Tender) (p : Profile) : QualResult :=
  let c1 := turnoverCheck t p
  let c2 := insuranceCheck p
  let c3 := experienceCheck p
  let c4 := safeguardingCheck p
  let c5 := dbsCheck p
  let c6 := healthSafetyCheck p
  let c7 := accreditationCheck p
  let c8 := locationCheck t p
  let score := c1.1 + c2.1 + c3.1 + c4.1 + c5.1 + c6.1 + c7.1 + c8.1
  { tender :=
      { id := t.id
        title := t.title
        description := t.description
        buyer := t.buyer
        value := t.value
        deadline := t.deadline
        url := "https://www.contractsfinder.service.gov.uk/notice/" ++ t.id
                 ++ "?origin=SearchResults"
        location := t.location }
    score := score
    status := statusOf score p
    passes := c1.2.1 ++ c2.2.1 ++ c3.2.1 ++ c4.2.1 ++ c5.2.1 ++ c6.2.1
                ++ c7.2.1 ++ c8.2.1
    issues := c1.2.2 ++ c2.2.2 ++ c3.2.2 ++ c4.2.2 ++ c5.2.2 ++ c6.2.2
                ++ c7.2.2 ++ c8.2.2 }

/-- Outcome of one jurisdiction's upstream query, as observed by the fetch
loop: `netError` (the `fetch` call itself rejects), `httpError`
(`response.ok` is false), `parseError` (`response.json()` rejects), or
`success rs` with `rs = none` when the body has no `releases` collection. -/
inductive FetchResult where
  | netError
  | httpError
  | parseError
  | success (releases : Option (List Release))
  deriving DecidableEq, Repr

/-- One pass of the combined duplicate / deadline / relevance filter over one
jurisdiction's normalized tenders (`part_001`, first draft, lines 105-125),
threading the mutable `seenIds` set: an already-seen id is dropped; a tender
without a future deadline or without relevance is dropped without recording
its id; a kept tender records its id. -/
def filterTenders (parse : String → Option Int) (now : Int)
    (seen : List String) : List Tender → List Tender × List String
  | [] => ([], seen)
  | t :: ts =>
    if seen.contains t.id then filterTenders parse now seen ts
    else if ¬hasFutureDeadline parse now t then filterTenders parse now seen ts
    else if ¬isRelevantAdaptationTender t then filterTenders parse now seen ts
    else
      let r := filterTenders parse now (t.id :: seen) ts
      (t :: r.1, r.2)

/-- Body of the per-jurisdiction loop of `fetchAdaptationTenders` (`part_001`,
first draft, lines 70-131), inside the single outer `try`: a rejected `fetch`
or a rejected `response.json()` throws out of the loop (`Except.error`); a
non-OK HTTP status or an absent `releases` collection skips the jurisdiction
(`continue`); otherwise the normalized, filtered tenders are appended. -/
def fetchLoop (parse : String → Option Int) (now : Int)
    (env : String → FetchResult) :
    List String → List Tender → List String → Except Unit (List Tender)
  | [], acc, _ => .ok acc
  | loc :: rest, acc, seen =>
    match env loc with
    | .netError => .error ()
    | .parseError => .error ()
    | .httpError => fetchLoop parse now env rest acc seen
    | .success none => fetchLoop parse now env rest acc seen
    | .success (some rs) =>
      let step := filterTenders parse now seen (rs.map (normalizeTender loc))
      fetchLoop parse now env rest (acc ++ step.1) step.2

/-- Notice Source Client `fetchAdaptationTenders` (`part_001`, first draft):
iterates the fixed jurisdiction list and returns the accumulated tenders; the
outer `catch` converts any thrown error into an empty result. -/
def fetchAdaptationTenders (parse : String → Option Int) (now : Int)
    (env : String → FetchResult) : List Tender :=
  match fetchLoop parse now env WEST_MIDLANDS_COUNCILS [] [] with
  | .ok ts => ts
  | .error _ => []

/-- The normalized tenders one jurisdiction contributes: its releases when
its query succeeded with a `releases` collection, nothing otherwise. -/
def normalizedFor (env : String → FetchResult) (loc : String) : List Tender :=
  match env loc with
  | .success (some rs) => rs.map (normalizeTender loc)
  | _ => []

/-- The ordered concatenation of normalized tenders across all jurisdictions,
in the fixed jurisdiction iteration order (the deduplicator's input in the
specification's description). -/
def concatNormalized (env : String → FetchResult) : List Tender :=
  WEST_MIDLANDS_COUNCILS.flatMap (normalizedFor env)

/-- Modelled from the spec: the deduplicator's contract in its own words —
keep only the first tender for each distinct `id`, threading the set of seen
ids. Compared against `filterTenders` (the code) in the refinement theorem. -/
def dedupFirstOcc (seen : List String) : List Tender → List Tender × List String
  | [] => ([], seen)
  | t :: ts =>
    if seen.contains t.id then dedupFirstOcc seen ts
    else
      let r := dedupFirstOcc (t.id :: seen) ts
      (t :: r.1, r.2)

/-- A concrete timestamp parser used to instantiate the `parse` parameter in
witnesses: a non-empty all-digit string parses to its decimal value, anything
else (in particular the empty string, like JS `new Date("")`) fails. -/
def simpleDateParse (s : String) : Option Int :=
  let cs := s.toList
  if cs.isEmpty then none
  else if cs.all Char.isDigit then
    some (Int.ofNat (cs.foldl (fun a c => a * 10 + (c.toNat - 48)) 0))
  else none

/-- Descending-score order used by the endpoints' comparator
`(a, b) => b.score - a.score`. -/
def scoreGE (a b : QualResult) : Prop := b.score ≤ a.score

instance : DecidableRel scoreGE := fun a b =>
  inferInstanceAs (Decidable (b.score ≤ a.score))

instance : IsTotal QualResult scoreGE := ⟨fun a b => le_total b.score a.score⟩

instance : IsTrans QualResult scoreGE :=
  ⟨fun _ _ _ h h' => le_trans h' h⟩

/-- Direct tender-check endpoint (`src/api/check-tenders-direct.js`, lines
20-30): qualify every fetched tender against the request's profile, sort by
score descending, and return the top 5 matches regardless of status. -/
def checkTendersDirect (tenders : List Tender) (p : Profile) : List QualResult :=
  ((tenders.map fun t => qualifyTender t p).insertionSort scoreGE).take 5

/-! Concrete inputs used by the scenario theorems, counterexamples and
witnesses. -/

/-- Scenario A tender: value 100,000, retrieved under Birmingham. -/
def tenderScenarioA : Tender :=
  { id := "ocds-b5fd17-aaa111"
    title := "Bathroom adaptation works"
    description := "Accessible bathroom and wet room adaptation programme"
    buyer := "Birmingham City Council"
    value := some 100000
    deadline := some "5"
    status := "active"
    location := "Birmingham" }

/-- Scenario A profile: turnover 400,000, insurance 5,000,000, 6 years
experience, all three policies, no accreditations, mismatched location. -/
def profileScenarioA : Profile :=
  { turnover := 400000
    publicLiability := 5000000
    yearsAdaptations := 6
    hasSafeguarding := true
    hasDBSChecks := true
    hasHealthSafety := true
    hasCHAS := false
    hasSMAS := false
    hasConstructionline := false
    hasSafeContractor := false
    location := "London" }

/-- Scenario D tender: the title carries the exclusion keyword "it system"
while the description carries the core keyword "adaptation". -/
def tenderScenarioD : Tender :=
  { id := "ocds-b5fd17-ddd444"
    title := "IT system maintenance contract"
    description := "Ongoing adaptation of the housing management system"
    buyer := "Birmingham City Council"
    value := none
    deadline := some "5"
    status := "active"
    location := "Birmingham" }

/-- Profile failing the insurance hard gate with zero public liability cover. -/
def profileHardGate : Profile :=
  { turnover := 10000000
    publicLiability := 0
    yearsAdaptations := 20
    hasSafeguarding := true
    hasDBSChecks := true
    hasHealthSafety := true
    hasCHAS := true
    hasSMAS := true
    hasConstructionline := true
    hasSafeContractor := true
    location := "Birmingham" }

/-- A plain valueless tender used where the turnover rule must be skipped. -/
def tenderPlain : Tender :=
  { id := "ocds-b5fd17-eee555"
    title := "Disabled facilities grant works"
    description := ""
    buyer := "Dudley MBC"
    value := none
    deadline := some "9"
    status := "active"
    location := "Dudley" }

/-! Helper lemmas: the rules that do not read `yearsAdaptations` are
unchanged by updating it. -/

lemma turnoverCheck_update_years (t : Tender) (p : Profile) (x : ℚ) :
    turnoverCheck t { p with yearsAdaptations := x } = turnoverCheck t p := rfl

lemma insuranceCheck_update_years (p : Profile) (x : ℚ) :
    insuranceCheck { p with yearsAdaptations := x } = insuranceCheck p := rfl

lemma safeguardingCheck_update_years (p : Profile) (x : ℚ) :
    safeguardingCheck { p with yearsAdaptations := x } = safeguardingCheck p := rfl

lemma dbsCheck_update_years (p : Profile) (x : ℚ) :
    dbsCheck { p with yearsAdaptations := x } = dbsCheck p := rfl

lemma healthSafetyCheck_update_years (p : Profile) (x : ℚ) :
    healthSafetyCheck { p with yearsAdaptations := x } = healthSafetyCheck p := rfl

lemma accreditationCheck_update_years (p : Profile) (x : ℚ) :
    accreditationCheck { p with yearsAdaptations := x } = accreditationCheck p := rfl

lemma locationCheck_update_years (t : Tender) (p : Profile) (x : ℚ) :
    locationCheck t { p with yearsAdaptations := x } = locationCheck t p := rfl

/-- Claim C4: on Scenario A (tender value 100,000; profile with turnover
400,000, insurance 5,000,000, 6 years experience, all three policy flags,
no accreditations, mismatched jurisdiction) the scoring engine returns
score 58 = 10 (turnover at least 3x value) + 15 (insurance) + 10 (experience)
+ 8 (safeguarding) + 8 (background checks) + 7 (health and safety), and the
classifier returns `green` (the status the specification calls `qualified`). -/
theorem claim_scenarioA_score58_qualified :
    (qualifyTender tenderScenarioA profileScenarioA).score = 58 ∧
      (qualifyTender tenderScenarioA profileScenarioA).status = Status.green := by
  constructor <;>
    norm_num +decide [qualifyTender, turnoverCheck, insuranceCheck,
      experienceCheck, safeguardingCheck, dbsCheck, healthSafetyCheck,
      accreditationCheck, locationCheck, statusOf, jsTruthyNum,
      requiredInsurance, tenderScenarioA, profileScenarioA, strIncludes,
      strLower, charsInclude]

/-- Claim C5: hard-gate precedence — for every tender and profile, zero
public-liability cover (below the fixed 5,000,000 minimum) or under one year
of experience makes `qualifyTender` return status `red` (`disqualified`),
whatever the score and the other profile fields. -/
theorem claim_hard_gate_disqualified (t : Tender) (p : Profile)
    (h : p.publicLiability = 0 ∨ p.yearsAdaptations < 1) :
    (qualifyTender t p).status = Status.red := by
  have hgate : p.publicLiability < 5000000 ∨ p.yearsAdaptations < 1 := by
    rcases h with h | h
    · exact Or.inl (by rw [h]; norm_num)
    · exact Or.inr h
  simp [qualifyTender, statusOf, hgate]

/-- Witness for C5: the hard gate fires on a concrete profile with zero
insurance despite a maximal score elsewhere. -/
theorem claim_hard_gate_disqualified_witness :
    (qualifyTender tenderPlain profileHardGate).status = Status.red :=
  claim_hard_gate_disqualified tenderPlain profileHardGate (Or.inl rfl)

/-- Claim C8: raising `yearsAdaptations` from 2 to 6 while holding the tender
and every other profile field fixed never decreases the score. -/
theorem claim_experience_monotone (t : Tender) (p : Profile) :
    (qualifyTender t { p with yearsAdaptations := 2 }).score ≤
      (qualifyTender t { p with yearsAdaptations := 6 }).score := by
  have h2 : experienceCheck { p with yearsAdaptations := 2 } =
      (-5, [], ["Only a few year(s) experience (many councils require 5+)"]) := by
    unfold experienceCheck
    norm_num
  have h6 : experienceCheck { p with yearsAdaptations := 6 } =
      (10, ["years experience in adaptation work"], []) := by
    unfold experienceCheck
    norm_num
  simp only [qualifyTender, turnoverCheck_update_years,
    insuranceCheck_update_years, safeguardingCheck_update_years,
    dbsCheck_update_years, healthSafetyCheck_update_years,
    accreditationCheck_update_years, locationCheck_update_years, h2, h6]
  omega

/-- Claim C6: relevance is an iff over the lowercased concatenation of title
and description — a tender is relevant exactly when some core-inclusion
keyword occurs as a substring and no exclusion keyword does; and the Scenario
D tender (title "IT system maintenance contract", description containing
"adaptation") is rejected, its title containing the exclusion keyword
"it system". -/
theorem claim_relevance_iff_and_scenarioD :
    (∀ t : Tender,
        isRelevantAdaptationTender t = true ↔
          ((∃ k ∈ CORE_ADAPTATION_KEYWORDS,
              strIncludes (strLower (t.title ++ " " ++ t.description)) k = true) ∧
            ∀ k ∈ EXCLUDE_KEYWORDS,
              strIncludes (strLower (t.title ++ " " ++ t.description)) k = false)) ∧
      isRelevantAdaptationTender tenderScenarioD = false := by
  constructor
  · intro t
    unfold isRelevantAdaptationTender
    cases hex : EXCLUDE_KEYWORDS.any
        (fun k => strIncludes (strLower (t.title ++ " " ++ t.description)) k) with
    | true =>
      obtain ⟨k, hk, hfk⟩ := List.any_eq_true.mp hex
      simp only [hex, if_true]
      constructor
      · intro h
        exact absurd h (by simp)
      · rintro ⟨-, hall⟩
        rw [hall k hk] at hfk
        exact absurd hfk (by simp)
    | false =>
      have hall : ∀ k ∈ EXCLUDE_KEYWORDS,
          strIncludes (strLower (t.title ++ " " ++ t.description)) k = false := by
        intro k hk
        have h := List.any_eq_false.mp hex k hk
        simpa using h
      simp only [hex, Bool.false_eq_true, if_false, List.any_eq_true]
      exact ⟨fun h => ⟨h, hall⟩, fun h => h.1⟩
  · decide

/-- Raw release whose enquiry-period end date is present but empty: the C7
counterexample input. -/
def releaseEmptyEnquiry : Release :=
  { ocid := "ocds-b5fd17-ccc333"
    title := some "Wet room installation"
    description := none
    buyerName := none
    amount := none
    enquiryEnd := some ""
    tenderEnd := some "2026-01-01T12:00:00Z"
    status := none }

/-- Counterexample to C7 as stated: a release whose enquiry-period end date is
present (`some ""`) does not get it as the normalized deadline — JS `||` is a
truthiness test, and the empty string falls through to the tender-period end
date. -/
theorem claim_deadline_selection_counterexample :
    releaseEmptyEnquiry.enquiryEnd.isSome = true ∧
      (normalizeTender "Birmingham" releaseEmptyEnquiry).deadline ≠
        releaseEmptyEnquiry.enquiryEnd := by
  decide

/-- Claim C7 as amended: the normalized deadline is the enquiry-period end
date when that field is present and non-empty (truthy); otherwise it is the
tender-period end date field unchanged; in particular when both are absent
the deadline is null. -/
theorem claim_deadline_selection_amended (loc : String) (r : Release) :
    (jsTruthyStr r.enquiryEnd = true →
        (normalizeTender loc r).deadline = r.enquiryEnd) ∧
      (jsTruthyStr r.enquiryEnd = false →
        (normalizeTender loc r).deadline = r.tenderEnd) ∧
      (r.enquiryEnd = none ∧ r.tenderEnd = none →
        (normalizeTender loc r).deadline = none) := by
  refine ⟨fun h => ?_, fun h => ?_, fun h => ?_⟩
  · simp [normalizeTender, jsOrStr, h]
  · simp [normalizeTender, jsOrStr, h]
  · simp [normalizeTender, jsOrStr, jsTruthyStr, h.1, h.2]

/-- Claim C9: a raw release with a falsy monetary amount (zero or absent) is
normalized to a null value, and the scoring engine then skips the turnover
rule entirely — the rule contributes nothing to the score and pushes no pass
or issue entry, so at the score / status / passes / issues interface such a
tender is indistinguishable from one with no stated value. -/
theorem claim_zero_value_normalized_and_skipped :
    (∀ (loc : String) (r : Release),
        jsTruthyNum r.amount = false → (normalizeTender loc r).value = none) ∧
      (∀ (t : Tender) (p : Profile), jsTruthyNum t.value = false →
        turnoverCheck t p = (0, [], []) ∧
          (qualifyTender t p).score = (qualifyTender { t with value := none } p).score ∧
          (qualifyTender t p).status = (qualifyTender { t with value := none } p).status ∧
          (qualifyTender t p).passes = (qualifyTender { t with value := none } p).passes ∧
          (qualifyTender t p).issues = (qualifyTender { t with value := none } p).issues) := by
  constructor
  · intro loc r h
    simp [normalizeTender, jsOrNullNum, h]
  · intro t p h
    have hskip : turnoverCheck t p = (0, [], []) := by
      simp [turnoverCheck, h]
    have hnone : turnoverCheck { t with value := none } p = (0, [], []) := by
      simp [turnoverCheck, jsTruthyNum]
    refine ⟨hskip, ?_, ?_, ?_, ?_⟩ <;>
      simp [qualifyTender, hskip, hnone, insuranceCheck, experienceCheck,
        safeguardingCheck, dbsCheck, healthSafetyCheck, accreditationCheck,
        locationCheck]

/-- Claim C10: the direct tender-check endpoint returns at most 5
qualification results, sorted in non-increasing score order, and does not
filter by status — a concrete hard-gated (`red`, i.e. disqualified) result is
returned like any other. -/
theorem claim_direct_endpoint_top5 :
    (∀ (ts : List Tender) (p : Profile), (checkTendersDirect ts p).length ≤ 5) ∧
      (∀ (ts : List Tender) (p : Profile),
        (checkTendersDirect ts p).Sorted scoreGE) ∧
      (checkTendersDirect [tenderPlain] profileHardGate).map (fun q => q.status) =
        [Status.red] := by
  refine ⟨fun ts p => ?_, fun ts p => ?_, ?_⟩
  · simp [checkTendersDirect, List.length_take]
  · exact List.Pairwise.sublist (List.take_sublist _ _)
      (List.sorted_insertionSort scoreGE _)
  · decide

/-- Every tender kept by the combined filter passed the deadline check and
the relevance check. -/
lemma mem_filterTenders_checks (parse : String → Option Int) (now : Int) :
    ∀ (seen : List String) (l : List Tender) (t : Tender),
      t ∈ (filterTenders parse now seen l).1 →
        hasFutureDeadline parse now t = true ∧
          isRelevantAdaptationTender t = true := by
  intro seen l
  induction l generalizing seen with
  | nil => intro t h; simp [filterTenders] at h
  | cons x xs ih =>
    intro t h
    rw [filterTenders] at h
    split at h
    · exact ih _ _ h
    · split at h
      · exact ih _ _ h
      · split at h
        · exact ih _ _ h
        · simp only [List.mem_cons] at h
          rcases h with rfl | h
          · next h2 h3 =>
              exact ⟨by simpa using h2, by simpa using h3⟩
          · exact ih _ _ h

/-- Every tender emitted by the fetch loop is either carried over from the
accumulator or passed both filters. -/
lemma mem_fetchLoop_checks (parse : String → Option Int) (now : Int)
    (env : String → FetchResult) :
    ∀ (locs : List String) (acc : List Tender) (seen : List String)
      (out : List Tender),
      fetchLoop parse now env locs acc seen = .ok out →
      ∀ t ∈ out, t ∈ acc ∨
        (hasFutureDeadline parse now t = true ∧
          isRelevantAdaptationTender t = true) := by
  intro locs
  induction locs with
  | nil =>
    intro acc seen out h t ht
    rw [fetchLoop] at h
    cases h
    exact Or.inl ht
  | cons loc rest ih =>
    intro acc seen out h t ht
    rw [fetchLoop] at h
    split at h
    · cases h
    · cases h
    · exact ih _ _ _ h t ht
    · exact ih _ _ _ h t ht
    · rcases ih _ _ _ h t ht with hmem | hpass
      · rcases List.mem_append.mp hmem with hacc | hnew
        · exact Or.inl hacc
        · exact Or.inr (mem_filterTenders_checks parse now _ _ t hnew)
      · exact Or.inr hpass

/-- Every tender in the overall fetch output passed the deadline check and
the relevance check. -/
lemma mem_fetch_checks (parse : String → Option Int) (now : Int)
    (env : String → FetchResult) (t : Tender)
    (ht : t ∈ fetchAdaptationTenders parse now env) :
    hasFutureDeadline parse now t = true ∧
      isRelevantAdaptationTender t = true := by
  unfold fetchAdaptationTenders at ht
  cases hfl : fetchLoop parse now env WEST_MIDLANDS_COUNCILS [] [] with
  | error e => rw [hfl] at ht; simp at ht
  | ok out =>
    rw [hfl] at ht
    rcases mem_fetchLoop_checks parse now env _ _ _ _ hfl t ht with habs | hp
    · simp at habs
    · exact hp

/-- Claim C2: a tender is retained by `hasFutureDeadline` iff its deadline
field is present, parses to a valid timestamp, and that timestamp is strictly
later than the evaluation-time `now` (parse failure, including the empty
string, is never retained); consequently every tender in the fetch output has
a non-null deadline whose timestamp is strictly greater than `now`. The one
assumption is that the parser, like JS `new Date("")`, fails on the empty
string. -/
theorem claim_deadline_validator (parse : String → Option Int) (now : Int)
    (hparse : parse "" = none) :
    (∀ t : Tender,
        hasFutureDeadline parse now t = true ↔
          ∃ s d, t.deadline = some s ∧ parse s = some d ∧ now < d) ∧
      ∀ (env : String → FetchResult) (t : Tender),
        t ∈ fetchAdaptationTenders parse now env →
          ∃ s d, t.deadline = some s ∧ parse s = some d ∧ now < d := by
  have hiff : ∀ t : Tender,
      hasFutureDeadline parse now t = true ↔
        ∃ s d, t.deadline = some s ∧ parse s = some d ∧ now < d := by
    intro t
    unfold hasFutureDeadline
    cases hd : t.deadline with
    | none => simp [jsTruthyStr]
    | some s =>
      by_cases hs : s = ""
      · subst hs
        simp [jsTruthyStr, hparse]
      · cases hp : parse s with
        | none => simp [jsTruthyStr, hs, hp]
        | some d => simp [jsTruthyStr, hs, hp]
  exact ⟨hiff, fun env t ht => (hiff t).mp (mem_fetch_checks parse now env t ht).1⟩

/-- Witness for C2: the deadline-validator characterization applied at the
concrete parser `simpleDateParse` and `now = 0`. -/
theorem claim_deadline_validator_witness :
    hasFutureDeadline simpleDateParse 0 tenderPlain = true ↔
      ∃ s d, tenderPlain.deadline = some s ∧ simpleDateParse s = some d ∧
        (0 : Int) < d :=
  (claim_deadline_validator simpleDateParse 0 rfl).1 tenderPlain

/-- On a list of tenders that all pass the deadline and relevance checks, the
combined filter is exactly first-occurrence deduplication. -/
lemma filterTenders_eq_dedup (parse : String → Option Int) (now : Int) :
    ∀ (seen : List String) (l : List Tender),
      (∀ t ∈ l, hasFutureDeadline parse now t = true ∧
        isRelevantAdaptationTender t = true) →
      filterTenders parse now seen l = dedupFirstOcc seen l := by
  intro seen l
  induction l generalizing seen with
  | nil => intro _; rfl
  | cons x xs ih =>
    intro h
    have hx := h x (List.mem_cons_self x xs)
    have hxs : ∀ t ∈ xs, hasFutureDeadline parse now t = true ∧
        isRelevantAdaptationTender t = true :=
      fun t ht => h t (List.mem_cons_of_mem x ht)
    rw [filterTenders, dedupFirstOcc]
    by_cases hseen : x.id ∈ seen
    · simp [hseen, ih seen hxs]
    · simp [hseen, hx.1, hx.2, ih (x.id :: seen) hxs]

/-- First-occurrence deduplication distributes over list append, threading
the seen-id set. -/
lemma dedupFirstOcc_append :
    ∀ (seen : List String) (l1 l2 : List Tender),
      dedupFirstOcc seen (l1 ++ l2) =
        ((dedupFirstOcc seen l1).1 ++
            (dedupFirstOcc (dedupFirstOcc seen l1).2 l2).1,
          (dedupFirstOcc (dedupFirstOcc seen l1).2 l2).2) := by
  intro seen l1
  induction l1 generalizing seen with
  | nil => intro l2; rfl
  | cons x xs ih =>
    intro l2
    rw [List.cons_append, dedupFirstOcc, dedupFirstOcc]
    by_cases hseen : x.id ∈ seen
    · simp [hseen, ih seen l2]
    · simp [hseen, ih (x.id :: seen) l2]

/-- With no network or parse error among the remaining jurisdictions and
every normalized tender passing both filters, the fetch loop appends exactly
the first-occurrence deduplication of the jurisdictions' concatenated
normalized tenders. -/
lemma fetchLoop_eq_dedup (parse : String → Option Int) (now : Int)
    (env : String → FetchResult) :
    ∀ (locs : List String) (acc : List Tender) (seen : List String),
      (∀ loc ∈ locs, env loc ≠ .netError ∧ env loc ≠ .parseError) →
      (∀ t ∈ locs.flatMap (normalizedFor env),
        hasFutureDeadline parse now t = true ∧
          isRelevantAdaptationTender t = true) →
      fetchLoop parse now env locs acc seen =
        .ok (acc ++ (dedupFirstOcc seen (locs.flatMap (normalizedFor env))).1) := by
  intro locs
  induction locs with
  | nil => intro acc seen _ _; simp [fetchLoop, dedupFirstOcc]
  | cons loc rest ih =>
    intro acc seen herr hpass
    have hloc := herr loc (List.mem_cons_self loc rest)
    have herr' : ∀ l ∈ rest, env l ≠ .netError ∧ env l ≠ .parseError :=
      fun l hl => herr l (List.mem_cons_of_mem loc hl)
    have hsplit : (loc :: rest).flatMap (normalizedFor env) =
        normalizedFor env loc ++ rest.flatMap (normalizedFor env) := by
      simp
    have hpass' : ∀ t ∈ rest.flatMap (normalizedFor env),
        hasFutureDeadline parse now t = true ∧
          isRelevantAdaptationTender t = true := by
      intro t ht
      exact hpass t (by rw [hsplit]; exact List.mem_append_right _ ht)
    have hpassloc : ∀ t ∈ normalizedFor env loc,
        hasFutureDeadline parse now t = true ∧
          isRelevantAdaptationTender t = true := by
      intro t ht
      exact hpass t (by rw [hsplit]; exact List.mem_append_left _ ht)
    rw [fetchLoop]
    cases henv : env loc with
    | netError => exact absurd henv hloc.1
    | parseError => exact absurd henv hloc.2
    | httpError =>
      have hn : normalizedFor env loc = [] := by simp [normalizedFor, henv]
      rw [ih acc seen herr' hpass', hsplit, hn, List.nil_append]
    | success releases =>
      cases releases with
      | none =>
        have hn : normalizedFor env loc = [] := by simp [normalizedFor, henv]
        rw [ih acc seen herr' hpass', hsplit, hn, List.nil_append]
      | some rs =>
        have hn : normalizedFor env loc = rs.map (normalizeTender loc) := by
          simp [normalizedFor, henv]
        have hfilter := filterTenders_eq_dedup parse now seen
          (rs.map (normalizeTender loc)) (by rw [← hn]; exact hpassloc)
        simp only [hfilter]
        rw [ih _ _ herr' hpass', hsplit, dedupFirstOcc_append, hn,
          List.append_assoc]

/-- Release returned identically (same `ocid`) by the first two jurisdictions
in iteration order, Birmingham then Dudley. -/
def releaseDup : Release :=
  { ocid := "ocds-b5fd17-dup001"
    title := some "Bathroom adaptation works"
    description := some "Wet room and level access programme"
    buyerName := some "Council"
    amount := none
    enquiryEnd := some "5"
    tenderEnd := none
    status := some "active" }

/-- Environment in which Birmingham and Dudley both return `releaseDup` and
every other jurisdiction returns no releases. -/
def envDup : String → FetchResult := fun loc =>
  if loc = "Birmingham" then .success (some [releaseDup])
  else if loc = "Dudley" then .success (some [releaseDup])
  else .success none

/-- Claim C1: when every jurisdiction's query reaches the per-jurisdiction
handling (no thrown network or body-parse error) and every normalized tender
passes the deadline and relevance filters, the fetch returns exactly the
first-occurrence-per-id subsequence of the ordered concatenation of
normalized tenders in jurisdiction iteration order; in particular, when
Birmingham and then Dudley both return the tender `releaseDup` with the same
id, the output is exactly one tender and it carries jurisdiction
"Birmingham". -/
theorem claim_dedup_first_occurrence :
    (∀ (parse : String → Option Int) (now : Int) (env : String → FetchResult),
        (∀ loc ∈ WEST_MIDLANDS_COUNCILS,
          env loc ≠ .netError ∧ env loc ≠ .parseError) →
        (∀ t ∈ concatNormalized env,
          hasFutureDeadline parse now t = true ∧
            isRelevantAdaptationTender t = true) →
        fetchAdaptationTenders parse now env =
          (dedupFirstOcc [] (concatNormalized env)).1) ∧
      fetchAdaptationTenders simpleDateParse 0 envDup =
        [normalizeTender "Birmingham" releaseDup] := by
  constructor
  · intro parse now env herr hpass
    unfold fetchAdaptationTenders
    rw [fetchLoop_eq_dedup parse now env WEST_MIDLANDS_COUNCILS [] [] herr hpass]
    rfl
  · decide

/-- A network or body-parse failure at any jurisdiction in the remaining list
throws out of the loop: the loop result is an error whatever was accumulated
so far. -/
lemma fetchLoop_error (parse : String → Option Int) (now : Int)
    (env : String → FetchResult) :
    ∀ (locs : List String) (acc : List Tender) (seen : List String),
      (∃ loc ∈ locs, env loc = .netError ∨ env loc = .parseError) →
      fetchLoop parse now env locs acc seen = .error () := by
  intro locs
  induction locs with
  | nil =>
    rintro acc seen ⟨loc, hmem, -⟩
    simp at hmem
  | cons loc rest ih =>
    rintro acc seen ⟨l, hmem, herr⟩
    rw [fetchLoop]
    rcases List.mem_cons.mp hmem with rfl | hmem'
    · rcases herr with h | h <;> simp only [h]
    · cases henv : env loc with
      | netError => simp only [henv]
      | parseError => simp only [henv]
      | httpError => simp only [henv]; exact ih _ _ ⟨l, hmem', herr⟩
      | success releases =>
        cases releases with
        | none => simp only [henv]; exact ih _ _ ⟨l, hmem', herr⟩
        | some rs => simp only [henv]; exact ih _ _ ⟨l, hmem', herr⟩

/-- Transformation that replaces a non-OK HTTP status with a successful
response carrying no `releases` collection. -/
def httpToEmpty (env : String → FetchResult) : String → FetchResult :=
  fun loc =>
    match env loc with
    | .httpError => .success none
    | r => r

/-- The fetch loop cannot distinguish a non-OK HTTP status from a response
with no `releases` collection: both skip the jurisdiction. -/
lemma fetchLoop_httpToEmpty (parse : String → Option Int) (now : Int)
    (env : String → FetchResult) :
    ∀ (locs : List String) (acc : List Tender) (seen : List String),
      fetchLoop parse now env locs acc seen =
        fetchLoop parse now (httpToEmpty env) locs acc seen := by
  intro locs
  induction locs with
  | nil => intro acc seen; rfl
  | cons loc rest ih =>
    intro acc seen
    rw [fetchLoop, fetchLoop]
    have hh : httpToEmpty env loc =
        match env loc with
        | .httpError => .success none
        | r => r := rfl
    cases henv : env loc with
    | netError => simp only [henv, hh]
    | parseError => simp only [henv, hh]
    | httpError => simp only [henv, hh]; exact ih _ _
    | success releases =>
      cases releases with
      | none => simp only [henv, hh]; exact ih _ _
      | some rs => simp only [henv, hh]; exact ih _ _

/-- Release returned by Dudley in the C3 counterexample environments. -/
def releaseDudley : Release :=
  { ocid := "ocds-b5fd17-bbb222"
    title := some "Bathroom adaptation works"
    description := some "Wet room programme"
    buyerName := some "Dudley MBC"
    amount := none
    enquiryEnd := some "5"
    tenderEnd := none
    status := some "active" }

/-- Environment where Birmingham's fetch fails with a network error while
Dudley returns one good release. -/
def envNetFail : String → FetchResult := fun loc =>
  if loc = "Birmingham" then .netError
  else if loc = "Dudley" then .success (some [releaseDudley])
  else .success none

/-- The same environment with Birmingham's failure replaced by a successful
zero-result response. -/
def envNetFailRecovered : String → FetchResult := fun loc =>
  if loc = "Birmingham" then .success none
  else if loc = "Dudley" then .success (some [releaseDudley])
  else .success none

/-- Counterexample to C3 as stated: with Birmingham failing by network error
and Dudley returning a good tender, the whole fetch returns the empty list —
not the Dudley tender that a "treat the failed jurisdiction as zero results
and proceed" behaviour (the recovered environment) produces. The failing
jurisdiction's error is not contained to that jurisdiction. -/
theorem claim_source_failure_counterexample :
    fetchAdaptationTenders simpleDateParse 0 envNetFail = [] ∧
      fetchAdaptationTenders simpleDateParse 0 envNetFailRecovered =
        [normalizeTender "Dudley" releaseDudley] ∧
      fetchAdaptationTenders simpleDateParse 0 envNetFail ≠
        fetchAdaptationTenders simpleDateParse 0 envNetFailRecovered := by
  refine ⟨by decide, by decide, by decide⟩

/-- Claim C3 as amended: the client never throws past its boundary, but only
a non-OK HTTP status is handled per-jurisdiction. A jurisdiction whose
response has a non-OK status (or no `releases` collection) contributes zero
results and the fetch proceeds with the remaining jurisdictions; a network
error or a response-body parse failure at any jurisdiction is caught only by
the outer boundary, which discards all jurisdictions' results and returns the
empty list. -/
theorem claim_source_failure_amended :
    (∀ (parse : String → Option Int) (now : Int) (env : String → FetchResult),
        (∃ loc ∈ WEST_MIDLANDS_COUNCILS,
          env loc = .netError ∨ env loc = .parseError) →
        fetchAdaptationTenders parse now env = []) ∧
      ∀ (parse : String → Option Int) (now : Int) (env : String → FetchResult),
        fetchAdaptationTenders parse now env =
          fetchAdaptationTenders parse now (httpToEmpty env) := by
  constructor
  · intro parse now env herr
    unfold fetchAdaptationTenders
    rw [fetchLoop_error parse now env _ _ _ herr]
  · intro parse now env
    unfold fetchAdaptationTenders
    rw [fetchLoop_httpToEmpty parse now env]

end TenderAlerts
